import Mathlib

/-!
Shallow embedding of the sales-analysis pipeline repository, covering the
components the verified claims are about:

* `tools/builtin_tools.py` — the Data Cleaner (`clean_data`) and the
  Statistical Analyzer (`analyze_statistics`);
* `main.py` — the Feedback Summarizer (`load_feedback_summary`) and the
  Pipeline Executor wrapper (`run_analysis`) with its metrics log append;
* `evaluation.py` — the Evaluation Harness scenarios and the metrics-log
  reader (`analyze_metrics`);
* `tools/smart_insight_generator.py` — the downstream contract consumer
  (`generate_insights`).

Modelling conventions: Python floats are modelled as `Option ℚ` where
`none` stands for IEEE NaN (every comparison against NaN is false); file
contents are lists of characters; JSON objects are association lists; a
Python function that can raise is embedded as an `Except`-valued function,
`Except.error` marking an uncaught exception.
-/

namespace SalesAgent

/-- A Python float: `none` models IEEE NaN (or a missing value). -/
abbrev PyFloat := Option ℚ

/-- Python `slope > 0` where `slope` may be NaN: NaN comparisons are false. -/
def pyGt0 : PyFloat → Bool
  | none => false
  | some q => decide (0 < q)

/-- Python `slope < 0` where `slope` may be NaN: NaN comparisons are false. -/
def pyLt0 : PyFloat → Bool
  | none => false
  | some q => decide (q < 0)

/-- Sum of a list of rationals (models `np.sum`-style accumulation). -/
def qsum (l : List ℚ) : ℚ := l.foldl (· + ·) 0

/-- Keep the first occurrence of each element, dropping later duplicates;
`seen` accumulates the elements already emitted.  This is both the loop of
`main.py` lines 126-129 (`if e_msg not in unique_errors: append`) and the
`keep="first"` semantics of `DataFrame.drop_duplicates`. -/
def dedupFirstAux {α : Type} [DecidableEq α] (seen : List α) : List α → List α
  | [] => []
  | x :: xs =>
      if x ∈ seen then dedupFirstAux seen xs
      else x :: dedupFirstAux (x :: seen) xs

/-- `pandas.DataFrame.drop_duplicates()` over a list of rows (keep first). -/
def pyDropDuplicates {α : Type} [DecidableEq α] (l : List α) : List α :=
  dedupFirstAux [] l

/-! ## Data model for CSV datasets (`pandas.DataFrame`)

A dataframe is a header (column name paired with a numeric-dtype flag, as
`select_dtypes(include=[np.number])` partitions columns by dtype) plus a
list of rows.  A cell is missing (`NaN`), numeric, or a string. -/

inductive Cell where
  | na
  | num (q : ℚ)
  | str (s : String)
deriving DecidableEq

structure DF where
  header : List (String × Bool)
  rows : List (List Cell)
deriving DecidableEq

/-- `df.columns`. -/
def DF.columns (df : DF) : List String := df.header.map Prod.fst

/-- Insert into an ascending list of rationals (helper for `median`). -/
def insertAsc (q : ℚ) : List ℚ → List ℚ
  | [] => [q]
  | x :: xs => if q ≤ x then q :: x :: xs else x :: insertAsc q xs

/-- Ascending sort of rationals (helper for `median`). -/
def sortAsc (l : List ℚ) : List ℚ := l.foldr insertAsc []

/-- `Series.median()` over the present numeric values of a column: middle
element for odd length, mean of the two middle elements for even length,
NaN (`none`) for an empty column. -/
def median (l : List ℚ) : Option ℚ :=
  let s := sortAsc l
  let n := s.length
  if n = 0 then none
  else if n % 2 = 1 then s.get? (n / 2)
  else
    match s.get? (n / 2 - 1), s.get? (n / 2) with
    | some a, some b => some ((a + b) / 2)
    | _, _ => none

/-- The numeric values present in column `j` of the rows. -/
def colNumVals (rows : List (List Cell)) (j : ℕ) : List ℚ :=
  rows.filterMap (fun r =>
    match r.get? j with
    | some (Cell.num q) => some q
    | _ => none)

/-- Fill one cell: a missing cell in a numeric column becomes the column
median; `fillna(NaN)` leaves a missing cell missing (median of an empty
column is NaN). -/
def fillCell (m : Option ℚ) (c : Cell) : Cell :=
  match c, m with
  | Cell.na, some q => Cell.num q
  | c, _ => c

/-- Is column `j` of the header a numeric-dtype column? -/
def isNumCol (header : List (String × Bool)) (j : ℕ) : Bool :=
  match header.get? j with
  | some (_, b) => b
  | none => false

/-- `builtin_tools.py` lines 92-94: for every numeric column, fill missing
values with that column's median. -/
def fillMissing (df : DF) : DF :=
  { df with
    rows := df.rows.map (fun r =>
      r.mapIdx (fun j c =>
        if isNumCol df.header j then fillCell (median (colNumVals df.rows j)) c
        else c)) }

/-- Result contract of the Data Cleaner (`builtin_tools.py` lines 110-117);
the `status = error` branches (unreadable input, unwritable output) return
no row counts and are outside this record. -/
structure CleanResult where
  original_rows : ℕ
  clean_rows : ℕ
  clean_path : String
deriving DecidableEq

/-- `data_path.replace(".csv", "_cleaned.csv")`: left-to-right replacement
of every occurrence, over the character list of the path. -/
def replaceCsvSuffix : List Char → List Char
  | '.' :: 'c' :: 's' :: 'v' :: rest =>
      '_' :: 'c' :: 'l' :: 'e' :: 'a' :: 'n' :: 'e' :: 'd' ::
      '.' :: 'c' :: 's' :: 'v' :: replaceCsvSuffix rest
  | c :: rest => c :: replaceCsvSuffix rest
  | [] => []

/-- The Data Cleaner `clean_data` (`builtin_tools.py` lines 71-117) on a
successfully read dataframe: fill numeric missing values with column
medians, drop duplicate rows, report input and output row counts. -/
def clean_data (df : DF) (dataPath : String) : CleanResult :=
  let original := df.rows.length
  let cleaned := pyDropDuplicates (fillMissing df).rows
  { original_rows := original
    clean_rows := cleaned.length
    clean_path := String.mk (replaceCsvSuffix dataPath.data) }

/-! ## Statistical Analyzer (`builtin_tools.py` lines 120-188)

The analyzer is modelled on the numeric target column of the dataset (its
docstring: a numeric target column); with no further numeric columns the
`correlations` mapping is empty, which is the shape all claims about the
analyzer exercise. -/

/-- `Series.mean()`: NaN on an empty column. -/
def pyMean (l : List ℚ) : Option ℚ :=
  if l.length = 0 then none else some (qsum l / l.length)

/-- `Series.std()` (sample, `ddof = 1`): NaN for fewer than two values.
The value is modelled by the sample variance (its square); only whether it
is NaN is ever used by a claim. -/
def pyStd (l : List ℚ) : Option ℚ :=
  if l.length ≤ 1 then none
  else some (qsum (l.map (fun v => (v - qsum l / l.length) ^ 2)) /
    ((l.length : ℚ) - 1))

/-- Outcome of `scipy.stats.linregress` as consumed by the analyzer. -/
structure RegResult where
  slope : PyFloat
  r2 : PyFloat
  p_value : PyFloat
deriving DecidableEq

/-- `scipy.stats.linregress(np.arange(len(df)), y)`:
* empty input raises `ValueError("Inputs must not be empty.")`;
* a single point gives slope `0/0 = NaN` (the all-identical-x guard only
  fires for more than one point), `r = 0` (zero-variance branch), and a
  NaN p-value (`sqrt` of a negative degrees-of-freedom ratio);
* for `n ≥ 2` the x values `0..n-1` are distinct, so the least-squares
  slope and `r²` are well defined rationals.  The p-value for `n ≥ 3`
  involves the t-distribution tail (transcendental); it is modelled by a
  fixed stand-in value, since no claim reads it. -/
def linregress (y : List ℚ) : Except String RegResult :=
  let n := y.length
  if n = 0 then Except.error "Inputs must not be empty."
  else if n = 1 then Except.ok ⟨none, some 0, none⟩
  else
    let nq : ℚ := n
    let xs : List ℚ := (List.range n).map (fun i => (i : ℚ))
    let sx := qsum xs
    let sy := qsum y
    let sxx := qsum (xs.map (fun a => a * a))
    let syy := qsum (y.map (fun a => a * a))
    let sxy := qsum (List.zipWith (· * ·) xs y)
    let dx := nq * sxx - sx * sx
    let dy := nq * syy - sy * sy
    let cov := nq * sxy - sx * sy
    let slope := cov / dx
    let r2 : ℚ := if dx = 0 ∨ dy = 0 then 0 else cov * cov / (dx * dy)
    let p : PyFloat :=
      if n = 2 then some (if y.get? 0 = y.get? 1 then 1 else 0) else some 0
    Except.ok ⟨some slope, some r2, p⟩

/-- `builtin_tools.py` lines 171-177: trend direction from the slope; both
NaN comparisons are false, so a NaN slope yields `"stable"`. -/
def trendDirection (slope : PyFloat) : String :=
  if pyGt0 slope then "increasing"
  else if pyLt0 slope then "decreasing"
  else "stable"

/-- The `trend` block of the analyzer contract. -/
structure TrendInfo where
  slope : PyFloat
  r2 : PyFloat
  p_value : PyFloat
  direction : String
deriving DecidableEq

/-- Analyzer result contract: `status = error` with a message, or
`status = ok` with mean, std, trend block and correlations. -/
inductive ASResult where
  | err (message : String)
  | ok (mean std : PyFloat) (trend : TrendInfo)
      (correlations : List (String × ℚ))
deriving DecidableEq

/-- The Statistical Analyzer `analyze_statistics` (`builtin_tools.py`
lines 120-188) on a successfully read dataset: error contract if the
target column is absent; otherwise mean, std and regression inside a
`try`, any exception (in particular the one `linregress` raises on an
empty column) becoming a `status = error` contract.  The error message
abbreviates the interpolated column names of the source. -/
def analyze_statistics (hasTarget : Bool) (targetVals : List ℚ) : ASResult :=
  if hasTarget = false then
    ASResult.err "Target column not found in dataset."
  else
    match linregress targetVals with
    | Except.error e =>
        ASResult.err ("Error during statistical analysis: " ++ e)
    | Except.ok reg =>
        ASResult.ok (pyMean targetVals) (pyStd targetVals)
          ⟨reg.slope, reg.r2, reg.p_value, trendDirection reg.slope⟩ []

/-! ## Feedback Summarizer (`main.py` lines 77-144)

A metrics-log file state is `none` (absent) or a list of physical lines.
Each line is blank (skipped), fails `json.loads` (`bad`), or parses to a
JSON value — a non-object scalar or an object (association list).  Record
field values are modelled as JSON scalars; the claims and theorems below
only exercise records whose fields are scalars. -/

inductive PFlat where
  | nullv
  | boolv (b : Bool)
  | numv (q : ℚ)
  | strv (s : String)
deriving DecidableEq

abbrev JRecord := List (String × PFlat)

inductive LogLine where
  | blank
  | bad
  | scalar (v : PFlat)
  | record (r : JRecord)
deriving DecidableEq

/-- Python truthiness of a JSON scalar. -/
def truthy : PFlat → Bool
  | PFlat.nullv => false
  | PFlat.boolv b => b
  | PFlat.numv q => decide (q ≠ 0)
  | PFlat.strv s => decide (s ≠ "")

/-- The parse loop of `main.py` lines 97-103: strip each line, skip blank
lines, `json.loads` the rest; any line that fails to parse aborts the
whole loop (the `except` returns the caution message), so the result is
`none` when any line is bad. -/
def parseLog : List LogLine → Option (List (PFlat ⊕ JRecord))
  | [] => some []
  | LogLine.blank :: rest => parseLog rest
  | LogLine.bad :: _ => none
  | LogLine.scalar v :: rest => (parseLog rest).map (Sum.inl v :: ·)
  | LogLine.record r :: rest => (parseLog rest).map (Sum.inr r :: ·)

/-- `sorted(records, key=lambda r: r.get("start_time", ""))` applies the
key function to every element; `r.get` on a parsed non-object value
raises `AttributeError`, so any scalar among the records aborts.  This
extraction returns the records only when all parsed values are objects. -/
def asRecords : List (PFlat ⊕ JRecord) → Option (List JRecord)
  | [] => some []
  | Sum.inr r :: rest => (asRecords rest).map (r :: ·)
  | Sum.inl _ :: _ => none

/-- The sort key `r.get("start_time", "")`.  A present non-string value
makes the sort compare mixed types, which raises `TypeError` whenever a
comparison happens; this is modelled as always raising (the claims and
theorems only exercise logs whose `start_time` values are strings). -/
def recKey (r : JRecord) : Except Unit String :=
  match r.lookup "start_time" with
  | none => Except.ok ""
  | some (PFlat.strv s) => Except.ok s
  | some _ => Except.error ()

/-- Code-point lexicographic strict comparison of strings, as Python
compares `str` values (and kernel-reducible, unlike `String.lt`). -/
def strLtb : List Char → List Char → Bool
  | [], [] => false
  | [], _ :: _ => true
  | _ :: _, [] => false
  | a :: as, b :: bs => if a = b then strLtb as bs else decide (a.toNat < b.toNat)

def strLeb (a b : String) : Bool := !(strLtb b.data a.data)

/-- Stable ascending insertion by the string key paired with each record
(together with `sortByKey`, the stable ascending `sorted` of Python). -/
def insertByKey (x : JRecord × String) :
    List (JRecord × String) → List (JRecord × String)
  | [] => [x]
  | y :: ys => if strLeb x.2 y.2 then x :: y :: ys else y :: insertByKey x ys

def sortByKey (l : List (JRecord × String)) : List (JRecord × String) :=
  l.foldr insertByKey []

/-- The Python slice `l[-k:]`: the last `k` elements — except that for
`k = 0` the slice `l[-0:]` is `l[0:]`, the whole list. -/
def pySliceLast {α : Type} (k : ℕ) (l : List α) : List α :=
  if k = 0 then l else l.drop (l.length - k)

/-- The window of records the summarizer works on: sort ascending by
`start_time`, keep the last `max_runs` (`main.py` line 114). -/
def feedbackWindow (keyed : List (JRecord × String)) (maxRuns : ℕ) :
    List JRecord :=
  (pySliceLast maxRuns (sortByKey keyed)).map Prod.fst

/-- `r.get("success")` truthiness. -/
def recSuccess (r : JRecord) : Bool :=
  truthy ((r.lookup "success").getD PFlat.nullv)

/-- `main.py` lines 121-125: the `error_message` values of the failed
records that have a truthy message, in window (chronological) order. -/
def collectErrors (window : List JRecord) : List PFlat :=
  window.filterMap (fun r =>
    if recSuccess r then none
    else
      match r.lookup "error_message" with
      | some v => if truthy v then some v else none
      | none => none)

/-- `main.py` lines 126-130: order-preserving de-duplication, capped at
three entries. -/
def uniqueErrors (errors : List PFlat) : List PFlat :=
  (dedupFirstAux [] errors).take 3

/-- `main.py` line 139: truncate a message over 140 characters to its
first 140 characters plus an ellipsis marker. -/
def shortMsg (s : String) : String :=
  if 140 < s.length then s.take 140 ++ "..." else s

/-- Render one enumerated error line; `len(msg)` and `msg[:140]` raise
`TypeError` when the (truthy) message value is not a string. -/
def renderErrorLine (idx : ℕ) (v : PFlat) : Except Unit String :=
  match v with
  | PFlat.strv s => Except.ok ("  " ++ toString idx ++ ". " ++ shortMsg s)
  | _ => Except.error ()

/-- Zero-padded decimal rendering (helper for `twoDecimals`). -/
def padZeros (d : ℕ) (n : ℕ) : String :=
  let s := toString n
  String.mk (List.replicate (d - s.length) '0') ++ s

/-- The `{success_rate:.2f}` format: two decimal places.  Python rounds
half-to-even; modelled with `round` (half-up) — the difference is not
observable by any claim. -/
def twoDecimals (q : ℚ) : String :=
  let c : ℤ := round (q * 100)
  toString (c / 100) ++ "." ++ padZeros 2 (c % 100).natAbs

/-- `main.py` lines 116-144: counts, success rate and the rendered
multi-line summary over the selected window. -/
def renderSummary (window : List JRecord) : Except Unit String := do
  let total := window.length
  let successes := (window.filter (fun r => recSuccess r)).length
  let rate : ℚ := if total = 0 then 0 else (successes : ℚ) / total
  let uniq := uniqueErrors (collectErrors window)
  let headLine := "Recent runs analyzed. " ++ toString total ++
    " total, success rate " ++ twoDecimals rate ++ "."
  if uniq.isEmpty then
    Except.ok (String.intercalate "\n"
      [headLine, "No recurring runtime errors detected in recent runs."])
  else do
    let errLines ← uniq.enum.mapM (fun p => renderErrorLine (p.1 + 1) p.2)
    Except.ok (String.intercalate "\n"
      (headLine :: "Common recent errors." :: errLines))

/-- The records of a line list: one per `record` line, blanks skipped
(the shape `parseLog` produces on a log with no bad and no scalar
lines). -/
def extractRecs (lines : List LogLine) : List JRecord :=
  lines.filterMap (fun l =>
    match l with
    | LogLine.record r => some r
    | _ => none)

/-- Field typing under which the summarizer reaches no raise point: the
`start_time` value (when present) is a string, and the `error_message`
value (when present) is a string or falsy (falsy values are filtered
out before `len(msg)` is taken). -/
def recFieldsOk (r : JRecord) : Bool :=
  (match r.lookup "start_time" with
   | none => true
   | some (PFlat.strv _) => true
   | some _ => false) &&
  (match r.lookup "error_message" with
   | none => true
   | some v =>
       match v with
       | PFlat.strv _ => true
       | other => !truthy other)

/-- A line that is blank or a well-typed record. -/
def lineIsOkRec : LogLine → Bool
  | LogLine.blank => true
  | LogLine.record r => recFieldsOk r
  | _ => false

def firstRunMsg : String :=
  "No prior evaluation runs found. You are running the workflow for the first time."

def cautionMsg : String :=
  "Evaluation log exists but could not be parsed. Assume there may have been past failures."

def emptyLogMsg : String :=
  "Evaluation log is empty. No feedback available."

/-- The Feedback Summarizer `load_feedback_summary` (`main.py` lines
77-144) over a log-file state; `Except.error` marks an uncaught
exception escaping the function. -/
def load_feedback_summary (log : Option (List LogLine)) (maxRuns : ℕ) :
    Except Unit String :=
  match log with
  | none => Except.ok firstRunMsg
  | some lines =>
      match parseLog lines with
    | none => Except.ok cautionMsg
    | some parsed =>
        if parsed.isEmpty then Except.ok emptyLogMsg
        else
          match asRecords parsed with
          | none => Except.error ()
          | some recs =>
              match recs.mapM (fun r => (recKey r).map (fun k => (r, k))) with
              | Except.error _ => Except.error ()
              | Except.ok keyed => renderSummary (feedbackWindow keyed maxRuns)

/-! ## Metrics Recorder: `json.dumps` of the metrics record (`main.py`
lines 349-362) and the line-by-line reader (`evaluation.py` lines
105-110, same shape in `main.py` lines 98-103). -/

/-- A flat JSON value as they occur in the metrics record. -/
inductive JVal where
  | null
  | bool (b : Bool)
  | num (q : ℚ)
  | str (s : String)
deriving DecidableEq

def hexChars : List Char := "0123456789abcdef".data

def hexDigit (n : ℕ) : Char := (hexChars.get? n).getD '0'

/-- `\uXXXX` escape used by `json.dumps` (`ensure_ascii=True`) for
control and non-ASCII characters (code points beyond `0xFFFF` use
surrogate pairs in Python; abbreviated here to one escape, which keeps
every relevant property: printable ASCII output). -/
def uEscape (n : ℕ) : List Char :=
  ['\\', 'u', hexDigit (n / 4096 % 16), hexDigit (n / 256 % 16),
   hexDigit (n / 16 % 16), hexDigit (n % 16)]

/-- Escaping of one character inside a JSON string literal, as
`json.dumps` emits it with the default `ensure_ascii=True`. -/
def escChar (c : Char) : List Char :=
  if c = '"' then ['\\', '"']
  else if c = '\\' then ['\\', '\\']
  else if c = '\n' then ['\\', 'n']
  else if c = '\r' then ['\\', 'r']
  else if c = '\t' then ['\\', 't']
  else if c = '\x08' then ['\\', 'b']
  else if c = '\x0c' then ['\\', 'f']
  else if 32 ≤ c.toNat ∧ c.toNat ≤ 126 then [c]
  else uEscape c.toNat

/-- A JSON string literal: quote, escaped characters, quote. -/
def jString (s : String) : List Char :=
  '"' :: (s.data.map escChar).flatten ++ ['"']

/-- Decimal digits of a natural number. -/
def natRepr (n : ℕ) : List Char :=
  if _h : n < 10 then [hexDigit n]
  else natRepr (n / 10) ++ [hexDigit (n % 10)]
decreasing_by exact Nat.div_lt_self (Nat.pos_of_ne_zero (by omega)) (by omega)

def intRepr (i : ℤ) : List Char :=
  if i < 0 then '-' :: natRepr i.natAbs else natRepr i.natAbs

/-- Stand-in for the decimal rendering of a Python float (`repr` of
`duration_seconds` inside `json.dumps`): numerator and denominator in
decimal.  The claims rely only on the rendering being one token of
printable non-whitespace characters. -/
def ratRepr (q : ℚ) : List Char := intRepr q.num ++ '/' :: natRepr q.den

def renderJVal : JVal → List Char
  | JVal.null => ['n', 'u', 'l', 'l']
  | JVal.bool true => ['t', 'r', 'u', 'e']
  | JVal.bool false => ['f', 'a', 'l', 's', 'e']
  | JVal.num q => ratRepr q
  | JVal.str s => jString s

/-- One Run Outcome record (`main.py` lines 349-357). -/
structure Metrics where
  run_tag : String
  start_time : String
  end_time : String
  duration_seconds : ℚ
  report_file : String
  success : Bool
  error_message : Option String
deriving DecidableEq

/-- The metrics dictionary in its insertion order, exactly as `main.py`
lines 349-357 build it: the `error_message` key is always present, with
`null` as its value on success. -/
def metricsJson (m : Metrics) : List (String × JVal) :=
  [("run_tag", JVal.str m.run_tag),
   ("start_time", JVal.str m.start_time),
   ("end_time", JVal.str m.end_time),
   ("duration_seconds", JVal.num m.duration_seconds),
   ("report_file", JVal.str m.report_file),
   ("success", JVal.bool m.success),
   ("error_message",
     match m.error_message with
     | none => JVal.null
     | some e => JVal.str e)]

def renderPair (p : String × JVal) : List Char :=
  jString p.1 ++ ':' :: ' ' :: renderJVal p.2

def commaJoin : List (List Char) → List Char
  | [] => []
  | [x] => x
  | x :: y :: xs => x ++ ',' :: ' ' :: commaJoin (y :: xs)

/-- `json.dumps(metrics)` with default separators. -/
def encodeMetrics (m : Metrics) : List Char :=
  '{' :: commaJoin ((metricsJson m).map renderPair) ++ ['}']

/-- One append step of the Metrics Recorder (`main.py` lines 359-362):
`f.write(json.dumps(metrics) + "\n")` in append mode. -/
def appendRecord (file : List Char) (m : Metrics) : List Char :=
  file ++ encodeMetrics m ++ ['\n']

/-- The log file produced by appending a list of records to an empty
(or absent, created-on-append) log. -/
def logFile (ms : List Metrics) : List Char :=
  (ms.map (fun m => encodeMetrics m ++ ['\n'])).flatten

/-- Python `str.isspace` set for `str.strip()`. -/
def isSpaceChar (c : Char) : Bool :=
  c = ' ' || c = '\t' || c = '\n' || c = '\r' || c = '\x0b' || c = '\x0c'

/-- Python `line.strip()`. -/
def pyStrip (l : List Char) : List Char :=
  ((l.dropWhile isSpaceChar).reverse.dropWhile isSpaceChar).reverse

/-- Split a file into physical lines at newline characters (the `for
line in f` iteration; the trailing piece after the last newline is the
final, possibly empty, line). -/
def splitLines : List Char → List (List Char)
  | [] => [[]]
  | c :: cs =>
      if c = '\n' then [] :: splitLines cs
      else
        match splitLines cs with
        | [] => [[c]]
        | l :: ls => (c :: l) :: ls

/-- The read side shared by `analyze_metrics` (`evaluation.py` lines
105-110) and the summarizer: iterate lines, strip, skip blanks. -/
def readLogLines (file : List Char) : List (List Char) :=
  ((splitLines file).map pyStrip).filter (fun l => !l.isEmpty)

/-! ## Pipeline Executor wrapper `run_analysis` (`main.py` lines 314-364)

`crew.kickoff()` is the external language-model-backed execution; its
outcome is a parameter: `Except.ok text` models a normal return whose
`str()` is `text`, `Except.error e` an exception with message `e`.  The
clock readings and the report timestamp are parameters (ambient clock).
Directory creation and file writes are modelled as succeeding; the
`Except String` in the result type marks an exception escaping
`run_analysis` itself — the theorems show it never occurs. -/

/-- File-system state touched by a run: report artifacts written (path
and content, one entry per write) and the metrics log content. -/
structure World where
  reports : List (String × String)
  evalLog : List Char
deriving DecidableEq

/-- `main.py` line 333: the report content written when the run failed. -/
def errorPlaceholder (e : String) : String := "ERROR DURING RUN. " ++ e

def run_analysis (runTag : String) (kick : Except String String)
    (startTime endTime timeStamp : String) (durationSeconds : ℚ)
    (w : World) : Except String (Metrics × World) :=
  let step :=
    match kick with
    | Except.ok r => (true, (none : Option String), r)
    | Except.error e => (false, some e, errorPlaceholder e)
  let reportPath := "outputs/reports/report_" ++ timeStamp ++ ".txt"
  let m : Metrics :=
    { run_tag := runTag
      start_time := startTime
      end_time := endTime
      duration_seconds := durationSeconds
      report_file := reportPath
      success := step.1
      error_message := step.2.1 }
  Except.ok (m, { reports := w.reports ++ [(reportPath, step.2.2)]
                  evalLog := appendRecord w.evalLog m })

/-! ## Dataset path configuration (`main.py` lines 63-70)

These lines run once, at module import: `RAW_FILE` is computed from the
environment as it is when `main` is first imported, and is never read
from the environment again.  `evaluation.py` imports `main` at its top
(line 15), before any test case sets the override variable. -/

def DATA_DIR : String := "data"

def DATASET_HINT : String := "ecommerce_q3_2024"

/-- The `RAW_FILE` module constant: the default path, unless the
override variable is present in the environment at import time
(`main.py` lines 63-70). -/
def rawFileAtModuleLoad (overrideAtLoad : Option String) : String :=
  match overrideAtLoad with
  | some p => p
  | none => DATA_DIR ++ "/" ++ DATASET_HINT ++ ".csv"

/-- The loaded `main` module: the state it captures at import. -/
structure MainModule where
  rawFile : String
deriving DecidableEq

def mainModuleLoad (envAtLoad : Option String) : MainModule :=
  { rawFile := rawFileAtModuleLoad envAtLoad }

/-- The dataset path a pipeline run falls back to (interpolated into the
task descriptions at import time, `main.py` lines 209-219): only the
captured `RAW_FILE`; the environment at run start is not consulted. -/
def datasetPathUsed (m : MainModule) (_envAtRunStart : Option String) :
    String :=
  m.rawFile

/-- `data/ecommerce_q3_2024_no_revenue.csv` (`evaluation.py` line 63). -/
def altNoRevenuePath : String :=
  DATA_DIR ++ "/" ++ DATASET_HINT ++ "_no_revenue.csv"

/-! ## Evaluation Harness scenarios (`evaluation.py` lines 27-92)

The state a scenario touches: the dataset file at its base path, the
`.bak` path the missing-dataset scenario renames it to, the derived
no-revenue variant file, the override environment variable, and the
report/log world.  The pipeline run is a parameter: it may return a
metrics record or raise, and may change the world; the scenarios'
theorems assume it leaves the fixture files and the override variable
alone (no tool of the repository touches them). -/

structure EvalEnv where
  dataset : Option DF
  datasetBak : Option DF
  variantNoRevenue : Option DF
  overrideVar : Option String
  world : World
deriving DecidableEq

abbrev RunFun := String → EvalEnv → Except String Metrics × EvalEnv

/-- Frame assumption on the pipeline run: it does not move the dataset,
the backup, the variant file, or the override variable. -/
def preservesFixture (run : RunFun) : Prop :=
  ∀ tag s, ((run tag s).2.dataset = s.dataset) ∧
    ((run tag s).2.datasetBak = s.datasetBak) ∧
    ((run tag s).2.variantNoRevenue = s.variantNoRevenue) ∧
    ((run tag s).2.overrideVar = s.overrideVar)

/-- `evaluation.py` lines 32-48: hide the dataset (rename to `.bak`),
run, and in the `finally` rename it back; a raised exception is
re-raised after the `finally` restores. -/
def test_case_missing_dataset (run : RunFun) (s : EvalEnv) :
    Except String (Option Metrics) × EvalEnv :=
  match s.dataset with
  | none => (Except.ok none, s)
  | some content =>
      let s1 : EvalEnv := { s with dataset := none, datasetBak := some content }
      let out := run "missing_dataset" s1
      let s3 : EvalEnv :=
        { out.2 with dataset := out.2.datasetBak, datasetBak := none }
      match out.1 with
      | Except.ok m => (Except.ok (some m), s3)
      | Except.error e => (Except.error e, s3)

/-- `df.drop(columns=["revenue"])`: remove the column and each row's
cell at its position. -/
def dropCol (df : DF) (name : String) : DF :=
  { header := df.header.filter (fun p => p.1 ≠ name)
    rows := df.rows.map (fun r =>
      ((df.header.zip r).filter (fun p => p.1.1 ≠ name)).map Prod.snd) }

/-- `evaluation.py` lines 51-75: derive the variant dataset without the
revenue column, point the run at it via the override variable, run, and
in the `finally` delete the override and the variant file — then
re-raise if the run raised. -/
def test_case_missing_revenue_column (run : RunFun) (s : EvalEnv) :
    Except String (Option Metrics) × EvalEnv :=
  match s.dataset with
  | none => (Except.ok none, s)
  | some df =>
      if "revenue" ∈ df.columns then
        let alt := dropCol df "revenue"
        let s1 : EvalEnv :=
          { s with variantNoRevenue := some alt
                   overrideVar := some altNoRevenuePath }
        let out := run "missing_revenue" s1
        let s3 : EvalEnv :=
          { out.2 with overrideVar := none, variantNoRevenue := none }
        match out.1 with
        | Except.ok m => (Except.ok (some m), s3)
        | Except.error e => (Except.error e, s3)
      else (Except.ok none, s)

/-! ## Smart Insight Generator (`tools/smart_insight_generator.py`)

`generate_insights` receives a string; `json.loads` may fail (then the
raw text is wrapped in a dict) or produce any JSON value.  The parse
outcome is the parameter: `none` for a parse failure with the raw text
alongside, `some v` for a parsed value `v`.  `Except.error` marks an
uncaught exception. -/

inductive IVal where
  | nullv
  | boolv (b : Bool)
  | numv (q : ℚ)
  | strv (s : String)
  | listv (xs : List IVal)
  | dictv (fs : List (String × IVal))

/-- Python truthiness of a JSON value. -/
def truthyI : IVal → Bool
  | IVal.nullv => false
  | IVal.boolv b => b
  | IVal.numv q => decide (q ≠ 0)
  | IVal.strv s => decide (s ≠ "")
  | IVal.listv xs => !xs.isEmpty
  | IVal.dictv fs => !fs.isEmpty

/-- A value a numeric format spec (`.4f`, `abs`, arithmetic) accepts:
numbers and booleans; anything else raises `TypeError`. -/
def asNum : IVal → Except Unit ℚ
  | IVal.numv q => Except.ok q
  | IVal.boolv b => Except.ok (if b then 1 else 0)
  | _ => Except.error ()

/-- `str()` of a JSON value as interpolated into an f-string; container
rendering is abbreviated (no claim reads a rendered container). -/
def pyStr : IVal → String
  | IVal.nullv => "None"
  | IVal.boolv true => "True"
  | IVal.boolv false => "False"
  | IVal.numv q => String.mk (ratRepr q)
  | IVal.strv s => s
  | IVal.listv _ => "[...]"
  | IVal.dictv _ => "\x7b...\x7d"

/-- Fixed-point format `{q:.df}`; Python rounds half-to-even, modelled
with `round` — no claim observes the difference. -/
def fmtFixed (d : ℕ) (q : ℚ) : String :=
  let scaled : ℤ := round (q * ((10 : ℚ) ^ d))
  let sign := if scaled < 0 then "-" else ""
  let n := scaled.natAbs
  if d = 0 then sign ++ toString n
  else sign ++ toString (n / 10 ^ d) ++ "." ++ padZeros d (n % 10 ^ d)

/-- `data.get("status") == "error"`: equality against a string is false
for any non-string value. -/
def statusIsError (fs : List (String × IVal)) : Bool :=
  match fs.lookup "status" with
  | some (IVal.strv s) => decide (s = "error")
  | _ => false

/-- Python `max(pairs, key=lambda x: abs(x[1]))`: first maximum wins. -/
def pyMaxByAbs (h : String × ℚ) (t : List (String × ℚ)) : String × ℚ :=
  t.foldl (fun best p => if |best.2| < |p.2| then p else best) h

/-- Python `max(pairs, key=lambda x: x[1])`. -/
def pyMaxBySnd (h : String × ℚ) (t : List (String × ℚ)) : String × ℚ :=
  t.foldl (fun best p => if best.2 < p.2 then p else best) h

/-- Python `min(pairs, key=lambda x: x[1])`. -/
def pyMinBySnd (h : String × ℚ) (t : List (String × ℚ)) : String × ℚ :=
  t.foldl (fun best p => if p.2 < best.2 then p else best) h

/-- Lines 56-67 of the generator: the trend insight.  A truthy non-dict
`trend` raises at `trend.get`; a non-numeric `slope` raises in the
`.4f` format; a non-string `direction` raises at `.startswith`. -/
def trendBlock (fs : List (String × IVal)) :
    Except Unit (List String × List String) :=
  match fs.lookup "trend" with
  | none => Except.ok ([], [])
  | some tv =>
      if truthyI tv then
        match tv with
        | IVal.dictv tfs => do
            let directionV := (tfs.lookup "direction").getD (IVal.strv "stable")
            let slopeV := (tfs.lookup "slope").getD (IVal.numv 0)
            let slope ← asNum slopeV
            let direction ←
              match directionV with
              | IVal.strv s => Except.ok s
              | _ => Except.error ()
            let ins := "Revenue trend is " ++ direction ++ " with slope " ++
              fmtFixed 4 slope ++ " over the period."
            let recs :=
              if direction.startsWith "decreas" then
                ["HIGH: Investigate the reasons for the downward revenue trend."]
              else []
            Except.ok ([ins], recs)
        | _ => Except.error ()
      else Except.ok ([], [])

/-- Lines 69-80: the correlation insight.  A truthy non-dict raises at
`.items()`; a non-numeric coefficient raises inside `abs`. -/
def corrBlock (fs : List (String × IVal)) :
    Except Unit (List String × List String) :=
  let cv := (fs.lookup "correlations").getD (IVal.dictv [])
  if truthyI cv then
    match cv with
    | IVal.dictv cfs => do
        let pairs ← cfs.mapM (fun p => (asNum p.2).map (fun q => (p.1, q)))
        match pairs with
        | [] => Except.ok ([], [])
        | h :: t =>
            let top := pyMaxByAbs h t
            let ins := "Strongest correlation is between revenue and " ++
              top.1 ++ ": " ++ fmtFixed 2 top.2 ++ "."
            let recs :=
              if (7 : ℚ) / 10 < |top.2| then
                ["LOW: Use this strong relationship in forecasting and planning."]
              else []
            Except.ok ([ins], recs)
    | _ => Except.error ()
  else Except.ok ([], [])

/-- Lines 82-93: the segment insight.  Non-numeric segment values raise
(in the comparisons of `max`/`min` or in the gap arithmetic). -/
def segBlock (fs : List (String × IVal)) :
    Except Unit (List String × List String) :=
  match fs.lookup "segments" with
  | none => Except.ok ([], [])
  | some sv =>
      if truthyI sv then
        match sv with
        | IVal.dictv sfs => do
            let pairs ← sfs.mapM (fun p => (asNum p.2).map (fun q => (p.1, q)))
            match pairs with
            | [] => Except.ok ([], [])
            | h :: t =>
                let best := pyMaxBySnd h t
                let worst := pyMinBySnd h t
                let gap := (best.2 - worst.2) / max worst.2 (1 / 1000000) * 100
                let ins := best.1 ++ " segment leads, " ++ worst.1 ++
                  " lags, with about " ++ fmtFixed 0 gap ++ " percent gap."
                Except.ok ([ins],
                  ["MEDIUM: Build a focused improvement plan for the " ++
                    worst.1 ++ " segment."])
        | _ => Except.error ()
      else Except.ok ([], [])

/-- Numbered action lines (`enumerate(..., start=1)` rendering). -/
def numberedLines (l : List String) : List String :=
  l.enum.map (fun p => "  " ++ toString (p.1 + 1) ++ ". " ++ p.2)

/-- The early-return report for an error-shaped contract (lines 31-54). -/
def errorReport (now : String) (msg : IVal) : String :=
  "\nANALYSIS INSIGHTS | " ++ now ++ "\n\nFINDINGS:\n  - " ++
  "Analysis tool reported an error: " ++ pyStr msg ++
  "\n\nACTIONS:\n  1. Check dataset path and column names." ++
  "\n  2. Re run the analysis after fixing data issues." ++
  "\n\nConfidence: 40 percent | Quality: Limited (tool error)\n"

/-- The normal report (lines 95-116). -/
def mainReport (now : String) (insights recs : List String) : String :=
  let actionsBlock :=
    if recs.isEmpty then "  1. LOW: No specific actions identified."
    else String.intercalate "\n" (numberedLines recs)
  "\nANALYSIS INSIGHTS | " ++ now ++ "\n\nFINDINGS:\n" ++
  String.intercalate "\n" (insights.map (fun i => "  - " ++ i)) ++
  "\n\nACTIONS:\n" ++ actionsBlock ++
  "\n\nConfidence: 85 percent | Quality: Good\n"

/-- `generate_insights` (`tools/smart_insight_generator.py` lines
13-116).  `parsed` is the `json.loads` outcome of the input string
(`none`: parse failure, handled by wrapping the raw text); `now` is the
formatted clock reading. -/
def generate_insights (parsed : Option IVal) (rawText : String)
    (now : String) : Except Unit String :=
  let data : IVal :=
    match parsed with
    | none => IVal.dictv [("raw", IVal.strv rawText)]
    | some v => v
  match data with
  | IVal.dictv fs =>
      if statusIsError fs then
        Except.ok (errorReport now
          ((fs.lookup "message").getD (IVal.strv "Unknown analysis error.")))
      else do
        let tb ← trendBlock fs
        let cb ← corrBlock fs
        let sb ← segBlock fs
        let insights0 := tb.1 ++ cb.1 ++ sb.1
        let recs0 := tb.2 ++ cb.2 ++ sb.2
        let outcome :=
          if insights0.isEmpty then
            (["No structured analysis fields were found in the input."],
             recs0 ++
               ["LOW: Run the full statistical analysis before acting on this data."])
          else (insights0, recs0)
        Except.ok (mainReport now outcome.1 outcome.2)
  | _ => Except.error ()

/-- A data shape on which `generate_insights` reaches no raise point:
either a parse failure, or a JSON object that is error-shaped, or whose
optional `trend`, `correlations` and `segments` fields are
contract-shaped (dict with numeric slope / string direction, dict of
numeric coefficients, dict of numeric segment values — or absent or
falsy). -/
def trendOk (fs : List (String × IVal)) : Bool :=
  match fs.lookup "trend" with
  | none => true
  | some tv =>
      !truthyI tv ||
        (match tv with
         | IVal.dictv tfs =>
             (match tfs.lookup "slope" with
              | none => true
              | some s =>
                  match s with
                  | IVal.numv _ => true
                  | IVal.boolv _ => true
                  | _ => false) &&
             (match tfs.lookup "direction" with
              | none => true
              | some (IVal.strv _) => true
              | some _ => false)
         | _ => false)

def allNumValues (cfs : List (String × IVal)) : Bool :=
  cfs.all (fun p =>
    match p.2 with
    | IVal.numv _ => true
    | IVal.boolv _ => true
    | _ => false)

def corrOk (fs : List (String × IVal)) : Bool :=
  match fs.lookup "correlations" with
  | none => true
  | some cv =>
      !truthyI cv ||
        (match cv with
         | IVal.dictv cfs => allNumValues cfs
         | _ => false)

def segsOk (fs : List (String × IVal)) : Bool :=
  match fs.lookup "segments" with
  | none => true
  | some sv =>
      !truthyI sv ||
        (match sv with
         | IVal.dictv sfs => allNumValues sfs
         | _ => false)

def wellShapedData : Option IVal → Bool
  | none => true
  | some (IVal.dictv fs) => statusIsError fs || (trendOk fs && corrOk fs && segsOk fs)
  | some _ => false

/-! # Theorems -/

/-! ## Helper lemmas about de-duplication -/

theorem dedupFirstAux_length_le {α : Type} [DecidableEq α]
    (seen : List α) (l : List α) :
    (dedupFirstAux seen l).length ≤ l.length := by
  induction l generalizing seen with
  | nil => simp [dedupFirstAux]
  | cons x xs ih =>
      simp only [dedupFirstAux]
      split
      · exact Nat.le_succ_of_le (ih seen)
      · simpa using Nat.succ_le_succ (ih (x :: seen))

theorem dedupFirstAux_sublist {α : Type} [DecidableEq α]
    (seen : List α) (l : List α) :
    (dedupFirstAux seen l).Sublist l := by
  induction l generalizing seen with
  | nil => simp [dedupFirstAux]
  | cons x xs ih =>
      simp only [dedupFirstAux]
      split
      · exact (ih seen).cons x
      · exact (ih (x :: seen)).cons₂ x

theorem dedupFirstAux_not_mem_seen {α : Type} [DecidableEq α]
    (seen : List α) (l : List α) :
    ∀ y ∈ dedupFirstAux seen l, y ∉ seen := by
  induction l generalizing seen with
  | nil => simp [dedupFirstAux]
  | cons x xs ih =>
      simp only [dedupFirstAux]
      split
      · exact ih seen
      · intro y hy
        rcases List.mem_cons.1 hy with h | h
        · subst h; assumption
        · intro hseen
          exact ih (x :: seen) y h (List.mem_cons_of_mem x hseen)

theorem dedupFirstAux_nodup {α : Type} [DecidableEq α]
    (seen : List α) (l : List α) :
    (dedupFirstAux seen l).Nodup := by
  induction l generalizing seen with
  | nil => simp [dedupFirstAux]
  | cons x xs ih =>
      simp only [dedupFirstAux]
      split
      · exact ih seen
      · refine List.nodup_cons.2 ⟨?_, ih (x :: seen)⟩
        intro hmem
        exact dedupFirstAux_not_mem_seen (x :: seen) xs x hmem
          (List.mem_cons_self x seen)

/-! ## C10 — cleaning never adds rows -/

/-- C10: for every successful `clean_data` result, `clean_rows` is at
most `original_rows`: filling numeric missing values with medians keeps
the row count, and dropping duplicate rows only removes rows. -/
theorem C10_clean_rows_le_original_rows (df : DF) (dataPath : String) :
    (clean_data df dataPath).clean_rows ≤ (clean_data df dataPath).original_rows := by
  simp only [clean_data]
  calc (pyDropDuplicates (fillMissing df).rows).length
      ≤ (fillMissing df).rows.length := dedupFirstAux_length_le [] _
    _ = df.rows.length := by simp [fillMissing]

/-! ## C4 — analyzer trend block on short datasets -/

theorem linregress_ok_of_ne_nil (v : ℚ) (vs : List ℚ) :
    ∃ reg, linregress (v :: vs) = Except.ok reg ∧
      (vs = [] → reg = ⟨none, some 0, none⟩) := by
  cases vs with
  | nil => exact ⟨⟨none, some 0, none⟩, by simp [linregress], fun _ => rfl⟩
  | cons w ws =>
      cases hl : linregress (v :: w :: ws) with
      | error e =>
          exfalso
          simp [linregress] at hl
      | ok reg => exact ⟨reg, rfl, by simp⟩

/-- C4 (amended): on every dataset whose numeric target column has at
least one row, `analyze_statistics` returns a `status = ok` contract
with a well-formed trend block; on a single-row dataset the slope is
NaN (undefined) and the direction defaults to `"stable"`.  (A zero-row
dataset instead yields a `status = error` contract —
`C4_counterexample`.) -/
theorem C4_trend_block_well_formed (vals : List ℚ) (h : vals ≠ []) :
    ∃ m s t, analyze_statistics true vals = ASResult.ok m s t [] ∧
      (vals.length = 1 → t.slope = none ∧ t.direction = "stable") := by
  cases vals with
  | nil => exact absurd rfl h
  | cons v vs =>
      obtain ⟨reg, hreg, hone⟩ := linregress_ok_of_ne_nil v vs
      refine ⟨pyMean (v :: vs), pyStd (v :: vs),
        ⟨reg.slope, reg.r2, reg.p_value, trendDirection reg.slope⟩, ?_, ?_⟩
      · simp [analyze_statistics, hreg]
      · intro hlen
        have hvs : vs = [] := by
          cases vs with
          | nil => rfl
          | cons _ _ => simp at hlen
        rw [hone hvs]
        exact ⟨rfl, rfl⟩

/-- C4 witness: a concrete single-row dataset. -/
theorem C4_trend_block_well_formed_witness :
    ([(5 : ℚ)] ≠ []) ∧
      ∃ m s t, analyze_statistics true [(5 : ℚ)] = ASResult.ok m s t [] ∧
        t.slope = none ∧ t.direction = "stable" := by
  have h := C4_trend_block_well_formed [(5 : ℚ)] (by simp)
  obtain ⟨m, s, t, h1, h2⟩ := h
  have h3 := h2 rfl
  exact ⟨by simp, m, s, t, h1, h3.1, h3.2⟩

/-- C4 counterexample: a dataset that contains the target column but has
zero rows makes `scipy.stats.linregress` raise, which the analyzer
catches into a `status = error` contract — there is no trend block, so
the claim as stated (every dataset containing the target column gets a
well-formed trend block) fails. -/
theorem C4_counterexample :
    analyze_statistics true [] =
      ASResult.err "Error during statistical analysis: Inputs must not be empty." := by
  rfl

/-! ## C5 — distinct-error extraction -/

/-- C5: the summarizer collects the `error_message` values of failed
records in order, de-duplicates them by exact equality preserving
first-seen order, caps the list at 3, and truncates messages over 140
characters to their first 140 characters plus an ellipsis marker; on
`["A", "B", "A", "C", "D"]` it keeps `["A", "B", "C"]`. -/
theorem C5_distinct_error_extraction :
    (collectErrors
        [[("success", PFlat.boolv false), ("error_message", PFlat.strv "A")],
         [("success", PFlat.boolv false), ("error_message", PFlat.strv "B")],
         [("success", PFlat.boolv false), ("error_message", PFlat.strv "A")],
         [("success", PFlat.boolv false), ("error_message", PFlat.strv "C")],
         [("success", PFlat.boolv false), ("error_message", PFlat.strv "D")]] =
      [PFlat.strv "A", PFlat.strv "B", PFlat.strv "A",
       PFlat.strv "C", PFlat.strv "D"]) ∧
    (uniqueErrors [PFlat.strv "A", PFlat.strv "B", PFlat.strv "A",
        PFlat.strv "C", PFlat.strv "D"] =
      [PFlat.strv "A", PFlat.strv "B", PFlat.strv "C"]) ∧
    (∀ errors : List PFlat,
      (uniqueErrors errors).Sublist errors ∧
      (uniqueErrors errors).Nodup ∧
      (uniqueErrors errors).length ≤ 3) ∧
    (∀ s : String,
      (140 < s.length → shortMsg s = s.take 140 ++ "...") ∧
      (s.length ≤ 140 → shortMsg s = s)) := by
  refine ⟨by decide, by decide, fun errors => ⟨?_, ?_, ?_⟩, fun s => ⟨?_, ?_⟩⟩
  · exact (List.take_sublist 3 _).trans (dedupFirstAux_sublist [] errors)
  · exact (dedupFirstAux_nodup [] errors).sublist (List.take_sublist 3 _)
  · simp [uniqueErrors, List.length_take]
  · intro h
    simp [shortMsg, h]
  · intro h
    simp [shortMsg, Nat.not_lt.2 h]

set_option maxRecDepth 4000 in
/-- C5 witness: the truncation branch at a concrete 141-character
message. -/
theorem C5_distinct_error_extraction_witness :
    140 < (String.mk (List.replicate 141 'x')).length ∧
      shortMsg (String.mk (List.replicate 141 'x')) =
        (String.mk (List.replicate 141 'x')).take 140 ++ "..." := by
  have h := C5_distinct_error_extraction
  exact ⟨by decide, (h.2.2.2 _).1 (by decide)⟩

/-! ## C6 — the error_message field of a Run Outcome record -/

/-- C6 counterexample: the metrics dictionary always carries the
`error_message` key — a successful run's record contains it with value
`null`, so the field is not "present iff success is false". -/
theorem C6_counterexample :
    ∃ m w2, run_analysis "baseline" (Except.ok "All good.") "t0" "t1" "ts" 0
        ⟨[], []⟩ = Except.ok (m, w2) ∧
      m.success = true ∧
      ("error_message", JVal.null) ∈ metricsJson m := by
  refine ⟨⟨"baseline", "t0", "t1", 0, "outputs/reports/report_ts.txt", true, none⟩,
    ⟨[("outputs/reports/report_ts.txt", "All good.")],
      appendRecord [] ⟨"baseline", "t0", "t1", 0,
        "outputs/reports/report_ts.txt", true, none⟩⟩, rfl, rfl, ?_⟩
  simp [metricsJson]

/-- C6 (amended): every Run Outcome record carries the `error_message`
key; its value is null exactly when `success` is true (and the
exception message string exactly when `success` is false). -/
theorem C6_error_message_null_iff_success (runTag : String)
    (kick : Except String String) (st en ts : String) (dur : ℚ) (w : World) :
    ∃ m w2, run_analysis runTag kick st en ts dur w = Except.ok (m, w2) ∧
      (metricsJson m).map Prod.fst =
        ["run_tag", "start_time", "end_time", "duration_seconds",
         "report_file", "success", "error_message"] ∧
      (m.error_message = none ↔ m.success = true) := by
  cases kick with
  | ok r => exact ⟨_, _, rfl, rfl, by simp⟩
  | error e => exact ⟨_, _, rfl, rfl, by simp⟩

/-! ## C1 — run_analysis writes one report and appends one record -/

/-- C1: whatever `crew.kickoff` does, `run_analysis` returns normally
(the exception is not propagated), writes exactly one report artifact
and appends exactly one Run Outcome record; on an exception the record
has `success = false` and the exception's message, and the report
content is the error placeholder. -/
theorem C1_one_report_one_record (runTag : String)
    (kick : Except String String) (st en ts : String) (dur : ℚ) (w : World) :
    ∃ m w2 content,
      run_analysis runTag kick st en ts dur w = Except.ok (m, w2) ∧
      w2.reports = w.reports ++ [(m.report_file, content)] ∧
      w2.evalLog = appendRecord w.evalLog m ∧
      (∀ r, kick = Except.ok r → m.success = true ∧ m.error_message = none ∧
        content = r) ∧
      (∀ e, kick = Except.error e → m.success = false ∧
        m.error_message = some e ∧ content = errorPlaceholder e) := by
  cases kick with
  | ok r =>
      refine ⟨_, _, r, rfl, rfl, rfl, ?_, ?_⟩
      · intro r2 hr
        injection hr with h
        subst h
        exact ⟨rfl, rfl, rfl⟩
      · intro e he
        simp at he
  | error e =>
      refine ⟨_, _, errorPlaceholder e, rfl, rfl, rfl, ?_, ?_⟩
      · intro r hr
        simp at hr
      · intro e2 he
        injection he with h
        subst h
        exact ⟨rfl, rfl, rfl⟩

/-- C1 witness: a concrete failing kickoff. -/
theorem C1_one_report_one_record_witness :
    ∃ m w2 content,
      run_analysis "baseline" (Except.error "boom") "t0" "t1" "ts" 0 ⟨[], []⟩ =
        Except.ok (m, w2) ∧
      w2.reports = [(m.report_file, content)] ∧
      w2.evalLog = appendRecord [] m ∧
      m.success = false ∧ m.error_message = some "boom" ∧
      content = errorPlaceholder "boom" := by
  obtain ⟨m, w2, c, h1, h2, h3, _, h5⟩ :=
    C1_one_report_one_record "baseline" (Except.error "boom") "t0" "t1" "ts" 0
      ⟨[], []⟩
  obtain ⟨hs, hm, hc⟩ := h5 "boom" rfl
  exact ⟨m, w2, c, h1, by simpa using h2, by simpa using h3, hs, hm, hc⟩

/-! ## C2 — scenario perturbations are reversed -/

theorem tcmd_state (run : RunFun) (s : EvalEnv) (df : DF)
    (hds : s.dataset = some df) :
    (test_case_missing_dataset run s).2 =
      { (run "missing_dataset"
          { s with dataset := none, datasetBak := some df }).2 with
        dataset := (run "missing_dataset"
          { s with dataset := none, datasetBak := some df }).2.datasetBak
        datasetBak := none } := by
  simp only [test_case_missing_dataset, hds]
  cases h : (run "missing_dataset"
    ⟨none, some df, s.variantNoRevenue, s.overrideVar, s.world⟩).1 <;> rfl

theorem tcmr_state_run (run : RunFun) (s : EvalEnv) (df : DF)
    (hds : s.dataset = some df) (hrev : "revenue" ∈ df.columns) :
    (test_case_missing_revenue_column run s).2 =
      { (run "missing_revenue"
          { s with variantNoRevenue := some (dropCol df "revenue")
                   overrideVar := some altNoRevenuePath }).2 with
        overrideVar := none
        variantNoRevenue := none } := by
  simp only [test_case_missing_revenue_column, hds]
  rw [if_pos hrev]
  cases h : (run "missing_revenue"
    ⟨some df, s.datasetBak, some (dropCol df "revenue"),
      some altNoRevenuePath, s.world⟩).1 <;> rfl

theorem tcmr_state_skip (run : RunFun) (s : EvalEnv) (df : DF)
    (hds : s.dataset = some df) (hrev : "revenue" ∉ df.columns) :
    (test_case_missing_revenue_column run s).2 = s := by
  simp only [test_case_missing_revenue_column, hds]
  rw [if_neg hrev]

/-- C2: whatever the pipeline run does (return or raise), as long as it
leaves the fixture files and the override variable alone, the scenarios
fully reverse their perturbations: the missing-dataset scenario leaves
the dataset, variant and override exactly as before; the
missing-revenue-column scenario leaves the dataset as before and, when
its precondition held, deletes the variant file and clears the
override. -/
theorem C2_scenarios_restore_state (run : RunFun) (hrun : preservesFixture run)
    (s : EvalEnv) (df : DF) (hds : s.dataset = some df) :
    ((test_case_missing_dataset run s).2.dataset = s.dataset ∧
     (test_case_missing_dataset run s).2.variantNoRevenue = s.variantNoRevenue ∧
     (test_case_missing_dataset run s).2.overrideVar = s.overrideVar) ∧
    ((test_case_missing_revenue_column run s).2.dataset = s.dataset ∧
     ("revenue" ∈ df.columns →
        (test_case_missing_revenue_column run s).2.variantNoRevenue = none ∧
        (test_case_missing_revenue_column run s).2.overrideVar = none)) := by
  obtain ⟨hd1, hb1, hv1, ho1⟩ := hrun "missing_dataset"
    { s with dataset := none, datasetBak := some df }
  have k1 := tcmd_state run s df hds
  refine ⟨⟨?_, ?_, ?_⟩, ?_⟩
  · rw [k1]
    exact hb1.trans hds.symm
  · rw [k1]
    exact hv1
  · rw [k1]
    exact ho1
  · by_cases hrev : "revenue" ∈ df.columns
    · obtain ⟨hd2, hb2, hv2, ho2⟩ := hrun "missing_revenue"
        { s with variantNoRevenue := some (dropCol df "revenue")
                 overrideVar := some altNoRevenuePath }
      have k2 := tcmr_state_run run s df hds hrev
      refine ⟨?_, fun _ => ⟨?_, ?_⟩⟩
      · rw [k2]
        exact hd2
      · rw [k2]
      · rw [k2]
    · have k2 := tcmr_state_skip run s df hds hrev
      exact ⟨by rw [k2], fun h => absurd h hrev⟩

/-- C2 witness: a raising run over a concrete two-column dataset. -/
theorem C2_scenarios_restore_state_witness :
    ((test_case_missing_dataset (fun _ s => (Except.error "model failure", s))
        ⟨some ⟨[("date", false), ("revenue", true)], [[Cell.str "d1", Cell.num 1]]⟩,
          none, none, none, ⟨[], []⟩⟩).2.dataset =
      some ⟨[("date", false), ("revenue", true)], [[Cell.str "d1", Cell.num 1]]⟩) ∧
    ((test_case_missing_revenue_column
        (fun _ s => (Except.error "model failure", s))
        ⟨some ⟨[("date", false), ("revenue", true)], [[Cell.str "d1", Cell.num 1]]⟩,
          none, none, none, ⟨[], []⟩⟩).2.variantNoRevenue = none) ∧
    ((test_case_missing_revenue_column
        (fun _ s => (Except.error "model failure", s))
        ⟨some ⟨[("date", false), ("revenue", true)], [[Cell.str "d1", Cell.num 1]]⟩,
          none, none, none, ⟨[], []⟩⟩).2.overrideVar = none) := by
  have h := C2_scenarios_restore_state
    (fun _ s => (Except.error "model failure", s))
    (fun _ _ => ⟨rfl, rfl, rfl, rfl⟩)
    ⟨some ⟨[("date", false), ("revenue", true)], [[Cell.str "d1", Cell.num 1]]⟩,
      none, none, none, ⟨[], []⟩⟩
    ⟨[("date", false), ("revenue", true)], [[Cell.str "d1", Cell.num 1]]⟩ rfl
  have hin := h.2.2 (by decide)
  exact ⟨h.1.1, hin.1, hin.2⟩

/-! ## C3 — the override is read only at module import -/

/-- C3 (code evaluated at the failing trace): `evaluation.py` imports
`main` before any scenario runs, with the override variable absent, so
`RAW_FILE` is captured as the default path; setting the override before
starting a run does not redirect that run's dataset path.  Conversely,
an override present at import time fixes the path for every later run
of the process.  This contradicts the claim (the code's own comments
describe the claimed behavior; the code reads the environment only at
import, `main.py` lines 63-70). -/
theorem C3_override_read_only_at_import :
    datasetPathUsed (mainModuleLoad none) (some altNoRevenuePath) =
      DATA_DIR ++ "/" ++ DATASET_HINT ++ ".csv" ∧
    datasetPathUsed (mainModuleLoad none) (some altNoRevenuePath) ≠
      altNoRevenuePath ∧
    (∀ envLater : Option String,
      datasetPathUsed (mainModuleLoad (some altNoRevenuePath)) envLater =
        altNoRevenuePath) := by
  exact ⟨rfl, by decide, fun _ => rfl⟩

/-! ## C8 — append-only metrics log round-trip -/

theorem hexDigit_mem (n : ℕ) : hexDigit n ∈ hexChars := by
  unfold hexDigit
  cases h : hexChars.get? n with
  | none => decide
  | some c =>
      simpa using List.get?_mem h

theorem nl_not_mem_escChar (c : Char) : '\n' ∉ escChar c := by
  unfold escChar
  split
  · decide
  · split
    · decide
    · split
      · decide
      · split
        · decide
        · split
          · decide
          · split
            · decide
            · split
              · decide
              · split
                · next hrange =>
                    intro hmem
                    rw [List.mem_singleton] at hmem
                    rw [← hmem] at hrange
                    exact absurd hrange (by decide)
                · intro hmem
                  unfold uEscape at hmem
                  have hhex : '\n' ∉ hexChars := by decide
                  simp only [List.mem_cons, List.not_mem_nil, or_false] at hmem
                  rcases hmem with h | h | h | h | h | h
                  · exact absurd h (by decide)
                  · exact absurd h (by decide)
                  · exact hhex (by rw [h]; exact hexDigit_mem _)
                  · exact hhex (by rw [h]; exact hexDigit_mem _)
                  · exact hhex (by rw [h]; exact hexDigit_mem _)
                  · exact hhex (by rw [h]; exact hexDigit_mem _)

theorem natRepr_subset (n : ℕ) : ∀ c ∈ natRepr n, c ∈ hexChars := by
  induction n using Nat.strong_induction_on with
  | _ n ih =>
      rw [natRepr]
      split
      · intro c hc
        rw [List.mem_singleton] at hc
        exact hc ▸ hexDigit_mem n
      · intro c hc
        rcases List.mem_append.1 hc with h | h
        · exact ih (n / 10) (Nat.div_lt_self (by omega) (by norm_num)) c h
        · rw [List.mem_singleton] at h
          exact h ▸ hexDigit_mem _

theorem nl_not_mem_natRepr (n : ℕ) : '\n' ∉ natRepr n := by
  intro h
  exact absurd (natRepr_subset n _ h) (by decide)

theorem nl_not_mem_intRepr (i : ℤ) : '\n' ∉ intRepr i := by
  unfold intRepr
  split
  · intro h
    rcases List.mem_cons.1 h with h | h
    · exact absurd h (by decide)
    · exact nl_not_mem_natRepr _ h
  · exact nl_not_mem_natRepr _

theorem nl_not_mem_ratRepr (q : ℚ) : '\n' ∉ ratRepr q := by
  unfold ratRepr
  intro h
  rcases List.mem_append.1 h with h | h
  · exact nl_not_mem_intRepr _ h
  · rcases List.mem_cons.1 h with h | h
    · exact absurd h (by decide)
    · exact nl_not_mem_natRepr _ h

theorem nl_not_mem_jString (s : String) : '\n' ∉ jString s := by
  unfold jString
  intro h
  rcases List.mem_cons.1 h with h | h
  · exact absurd h (by decide)
  · rcases List.mem_append.1 h with h | h
    · rcases List.mem_flatten.1 h with ⟨piece, hp, hc⟩
      rcases List.mem_map.1 hp with ⟨d, _, rfl⟩
      exact nl_not_mem_escChar d hc
    · exact absurd h (by decide)

theorem nl_not_mem_renderJVal (v : JVal) : '\n' ∉ renderJVal v := by
  cases v with
  | null => decide
  | bool b => cases b <;> decide
  | num q => exact nl_not_mem_ratRepr q
  | str s => exact nl_not_mem_jString s

theorem nl_not_mem_renderPair (p : String × JVal) : '\n' ∉ renderPair p := by
  unfold renderPair
  intro h
  rcases List.mem_append.1 h with h | h
  · exact nl_not_mem_jString _ h
  · rcases List.mem_cons.1 h with h | h
    · exact absurd h (by decide)
    · rcases List.mem_cons.1 h with h | h
      · exact absurd h (by decide)
      · exact nl_not_mem_renderJVal _ h

theorem nl_not_mem_commaJoin (ls : List (List Char))
    (h : ∀ x ∈ ls, '\n' ∉ x) : '\n' ∉ commaJoin ls := by
  induction ls with
  | nil => simp [commaJoin]
  | cons x xs ih =>
      cases xs with
      | nil => exact h x (List.mem_singleton.2 rfl)
      | cons y ys =>
          simp only [commaJoin]
          intro hm
          rcases List.mem_append.1 hm with hm | hm
          · exact h x (List.mem_cons_self x _) hm
          · rcases List.mem_cons.1 hm with hm | hm
            · exact absurd hm (by decide)
            · rcases List.mem_cons.1 hm with hm | hm
              · exact absurd hm (by decide)
              · exact ih (fun z hz => h z (List.mem_cons_of_mem x hz)) hm

theorem nl_not_mem_encodeMetrics (m : Metrics) : '\n' ∉ encodeMetrics m := by
  unfold encodeMetrics
  intro h
  rcases List.mem_cons.1 h with h | h
  · exact absurd h (by decide)
  · rcases List.mem_append.1 h with h | h
    · refine nl_not_mem_commaJoin _ ?_ h
      intro x hx
      rcases List.mem_map.1 hx with ⟨p, _, rfl⟩
      exact nl_not_mem_renderPair p
    · exact absurd h (by decide)

theorem dropWhile_cons_false {p : Char → Bool} {a : Char} (l : List Char)
    (h : p a = false) : (a :: l).dropWhile p = a :: l := by
  simp [List.dropWhile_cons, h]

theorem pyStrip_braces (xs : List Char) :
    pyStrip ('\x7b' :: xs ++ ['\x7d']) = '\x7b' :: xs ++ ['\x7d'] := by
  have hb : isSpaceChar '\x7b' = false := by decide
  have he : isSpaceChar '\x7d' = false := by decide
  unfold pyStrip
  simp [List.dropWhile_cons, hb, he]

theorem pyStrip_encodeMetrics (m : Metrics) :
    pyStrip (encodeMetrics m) = encodeMetrics m := by
  unfold encodeMetrics
  exact pyStrip_braces _

theorem splitLines_append_nl (a b : List Char) (h : '\n' ∉ a) :
    splitLines (a ++ '\n' :: b) = a :: splitLines b := by
  induction a with
  | nil => simp [splitLines]
  | cons c cs ih =>
      have hc : ¬(c = '\n') := fun hcc => h (hcc ▸ List.mem_cons_self c cs)
      have hcs : '\n' ∉ cs := fun hm => h (List.mem_cons_of_mem c hm)
      simp only [List.cons_append, splitLines, if_neg hc, List.append_eq]
      rw [ih hcs]

theorem logFile_cons (m : Metrics) (ms : List Metrics) :
    logFile (m :: ms) = encodeMetrics m ++ '\n' :: logFile ms := by
  simp [logFile]

theorem readLogLines_logFile (ms : List Metrics) :
    readLogLines (logFile ms) = ms.map encodeMetrics := by
  induction ms with
  | nil => rfl
  | cons m ms ih =>
      unfold readLogLines
      rw [logFile_cons, splitLines_append_nl _ _ (nl_not_mem_encodeMetrics m)]
      simp only [List.map_cons, List.filter_cons, pyStrip_encodeMetrics]
      have hne : ((encodeMetrics m).isEmpty = false) := by
        unfold encodeMetrics
        rfl
      rw [hne]
      simp only [Bool.not_false, if_true]
      unfold readLogLines at ih
      rw [ih]

theorem foldl_appendRecord (file : List Char) (ms : List Metrics) :
    List.foldl appendRecord file ms = file ++ logFile ms := by
  induction ms generalizing file with
  | nil => simp [logFile]
  | cons m ms ih =>
      rw [List.foldl_cons, ih, logFile_cons]
      simp [appendRecord]

theorem appendRecord_logFile (ms : List Metrics) (m : Metrics) :
    appendRecord (logFile ms) m = logFile (ms ++ [m]) := by
  simp [logFile, appendRecord]

/-- C8: appending N Run Outcome records to the metrics log (one JSON
line each) and reading it back line-by-line, skipping blank lines,
yields exactly those N serialized records in append order; an append
only ever extends the existing file content. -/
theorem C8_append_only_roundtrip (ms : List Metrics) (file : List Char)
    (m : Metrics) :
    (readLogLines (List.foldl appendRecord [] ms) = ms.map encodeMetrics) ∧
    ((readLogLines (List.foldl appendRecord [] ms)).length = ms.length) ∧
    (∃ t, appendRecord file m = file ++ t) ∧
    (readLogLines (appendRecord (logFile ms) m) =
      ms.map encodeMetrics ++ [encodeMetrics m]) := by
  have hfold : List.foldl appendRecord ([] : List Char) ms = logFile ms := by
    simpa using foldl_appendRecord [] ms
  refine ⟨?_, ?_, ⟨encodeMetrics m ++ ['\n'], by simp [appendRecord]⟩, ?_⟩
  · rw [hfold, readLogLines_logFile]
  · rw [hfold, readLogLines_logFile]
    simp
  · rw [appendRecord_logFile, readLogLines_logFile]
    simp

/-! ## C7 — feedback summarizer branches, sorting and windowing -/

theorem char_toNat_inj {a b : Char} (h : a.toNat = b.toNat) : a = b := by
  apply Char.eq_of_val_eq
  exact UInt32.toNat.inj h

theorem strLtb_asymm (a b : List Char) (h : strLtb a b = true) :
    strLtb b a = false := by
  induction a generalizing b with
  | nil =>
      cases b with
      | nil => simp [strLtb] at h
      | cons d ds => simp [strLtb]
  | cons c cs ih =>
      cases b with
      | nil => simp [strLtb] at h
      | cons d ds =>
          by_cases hcd : c = d
          · subst hcd
            simp only [strLtb, if_pos rfl] at h ⊢
            exact ih ds h
          · have hdc : ¬ d = c := fun e => hcd e.symm
            simp only [strLtb, if_neg hcd] at h
            simp only [strLtb, if_neg hdc]
            have hlt : c.toNat < d.toNat := of_decide_eq_true h
            exact decide_eq_false (Nat.not_lt.2 (Nat.le_of_lt hlt))

theorem strLtb_neg_trans (a b c : List Char) (h1 : strLtb a b = false)
    (h2 : strLtb b c = false) : strLtb a c = false := by
  induction a generalizing b c with
  | nil =>
      cases b with
      | nil =>
          cases c with
          | nil => rfl
          | cons z zs => simp [strLtb] at h2
      | cons y ys => simp [strLtb] at h1
  | cons x xs ih =>
      cases c with
      | nil => rfl
      | cons z zs =>
          cases b with
          | nil => simp [strLtb] at h2
          | cons y ys =>
              by_cases hxy : x = y <;> by_cases hyz : y = z
              · subst hxy; subst hyz
                simp only [strLtb, if_pos rfl] at h1 h2 ⊢
                exact ih ys zs h1 h2
              · subst hxy
                simp only [strLtb, if_pos rfl, if_neg hyz] at h1 h2
                simp only [strLtb, if_neg hyz]
                exact h2
              · subst hyz
                simp only [strLtb, if_neg hxy, if_pos rfl] at h1 h2
                simp only [strLtb, if_neg hxy]
                exact h1
              · simp only [strLtb, if_neg hxy, if_neg hyz] at h1 h2
                have hyx : y.toNat ≤ x.toNat :=
                  Nat.not_lt.1 (of_decide_eq_false h1)
                have hzy : z.toNat ≤ y.toNat :=
                  Nat.not_lt.1 (of_decide_eq_false h2)
                by_cases hxz : x = z
                · exfalso
                  apply hxy
                  apply char_toNat_inj
                  subst hxz
                  omega
                · simp only [strLtb, if_neg hxz]
                  exact decide_eq_false (by omega)

theorem strLeb_total (a b : String) :
    strLeb a b = true ∨ strLeb b a = true := by
  unfold strLeb
  by_cases h : strLtb b.data a.data = true
  · right
    rw [strLtb_asymm _ _ h]
    rfl
  · left
    rw [Bool.not_eq_true] at h
    rw [h]
    rfl

theorem strLeb_trans {a b c : String} (h1 : strLeb a b = true)
    (h2 : strLeb b c = true) : strLeb a c = true := by
  unfold strLeb at h1 h2 ⊢
  rw [Bool.not_eq_eq_eq_not, Bool.not_true] at h1 h2 ⊢
  exact strLtb_neg_trans _ _ _ h2 h1

theorem mem_insertByKey (x y : JRecord × String) (l : List (JRecord × String)) :
    y ∈ insertByKey x l ↔ y = x ∨ y ∈ l := by
  induction l with
  | nil => simp [insertByKey]
  | cons z zs ih =>
      simp only [insertByKey]
      split
      · simp [List.mem_cons]
      · simp only [List.mem_cons, ih]
        tauto

theorem insertByKey_pairwise (x : JRecord × String)
    (l : List (JRecord × String))
    (h : l.Pairwise (fun a b => strLeb a.2 b.2 = true)) :
    (insertByKey x l).Pairwise (fun a b => strLeb a.2 b.2 = true) := by
  induction l with
  | nil => simp [insertByKey]
  | cons z zs ih =>
      rw [List.pairwise_cons] at h
      obtain ⟨hz, hzs⟩ := h
      simp only [insertByKey]
      split
      · next hle =>
          rw [List.pairwise_cons]
          refine ⟨?_, List.pairwise_cons.2 ⟨hz, hzs⟩⟩
          intro w hw
          rcases List.mem_cons.1 hw with hw | hw
          · rw [hw]
            exact hle
          · exact strLeb_trans hle (hz w hw)
      · next hgt =>
          rw [List.pairwise_cons]
          refine ⟨?_, ih hzs⟩
          intro w hw
          rcases (mem_insertByKey x w zs).1 hw with hw | hw
          · rw [hw]
            rcases strLeb_total x.2 z.2 with hor | hor
            · exact absurd hor hgt
            · exact hor
          · exact hz w hw

theorem insertByKey_perm (x : JRecord × String) (l : List (JRecord × String)) :
    List.Perm (insertByKey x l) (x :: l) := by
  induction l with
  | nil => simp [insertByKey]
  | cons z zs ih =>
      simp only [insertByKey]
      split
      · exact List.Perm.refl _
      · exact (ih.cons z).trans (List.Perm.swap x z zs)

theorem sortByKey_pairwise (l : List (JRecord × String)) :
    (sortByKey l).Pairwise (fun a b => strLeb a.2 b.2 = true) := by
  induction l with
  | nil => simp [sortByKey]
  | cons x xs ih => exact insertByKey_pairwise x _ ih

theorem sortByKey_perm (l : List (JRecord × String)) :
    List.Perm (sortByKey l) l := by
  induction l with
  | nil => simp [sortByKey]
  | cons x xs ih =>
      exact (insertByKey_perm x (sortByKey xs)).trans (ih.cons x)

theorem pySliceLast_split {α : Type} (k : ℕ) (l : List α) :
    ∃ pre, l = pre ++ pySliceLast k l := by
  unfold pySliceLast
  split
  · exact ⟨[], rfl⟩
  · exact ⟨l.take (l.length - k), (List.take_append_drop _ l).symm⟩

theorem pySliceLast_length {α : Type} (k : ℕ) (hk : k ≠ 0) (l : List α) :
    (pySliceLast k l).length = min k l.length := by
  unfold pySliceLast
  rw [if_neg hk, List.length_drop]
  omega

theorem parseLog_eq_none_iff (lines : List LogLine) :
    parseLog lines = none ↔ LogLine.bad ∈ lines := by
  induction lines with
  | nil => simp [parseLog]
  | cons l ls ih => cases l <;> simp [parseLog, ih]

theorem parseLog_all_records (lines : List LogLine)
    (h : ∀ l ∈ lines, lineIsOkRec l = true) :
    parseLog lines = some ((extractRecs lines).map Sum.inr) := by
  induction lines with
  | nil => rfl
  | cons l ls ih =>
      have hl := h l (List.mem_cons_self _ _)
      have hls := ih (fun x hx => h x (List.mem_cons_of_mem _ hx))
      cases l with
      | blank => simpa [parseLog, extractRecs, List.filterMap_cons] using hls
      | bad => simp [lineIsOkRec] at hl
      | scalar v => simp [lineIsOkRec] at hl
      | record r => simp [parseLog, extractRecs, List.filterMap_cons, hls]

theorem asRecords_map_inr (rs : List JRecord) :
    asRecords (rs.map Sum.inr) = some rs := by
  induction rs with
  | nil => rfl
  | cons r rs ih => simp [asRecords, ih]

theorem recKey_ok_of_fieldsOk (r : JRecord) (h : recFieldsOk r = true) :
    ∃ k, recKey r = Except.ok k := by
  unfold recFieldsOk at h
  rw [Bool.and_eq_true] at h
  obtain ⟨h1, _⟩ := h
  unfold recKey
  cases hst : r.lookup "start_time" with
  | none => exact ⟨"", rfl⟩
  | some v =>
      rw [hst] at h1
      cases v with
      | strv s => exact ⟨s, rfl⟩
      | nullv => simp at h1
      | boolv b => simp at h1
      | numv q => simp at h1

theorem mapM_recKey_ok (rs : List JRecord)
    (h : ∀ r ∈ rs, ∃ k, recKey r = Except.ok k) :
    ∃ keyed, rs.mapM (fun r => (recKey r).map (fun k => (r, k))) =
        Except.ok keyed ∧
      keyed.map Prod.fst = rs := by
  induction rs with
  | nil => exact ⟨[], rfl, rfl⟩
  | cons r rs ih =>
      obtain ⟨k, hk⟩ := h r (List.mem_cons_self _ _)
      obtain ⟨keyed, hky, hmap⟩ := ih (fun x hx => h x (List.mem_cons_of_mem _ hx))
      refine ⟨(r, k) :: keyed, ?_, by simp [hmap]⟩
      rw [List.mapM_cons, hk, hky]
      rfl

theorem collectErrors_strv (window : List JRecord)
    (h : ∀ r ∈ window, recFieldsOk r = true) :
    ∀ v ∈ collectErrors window, ∃ s, v = PFlat.strv s := by
  intro v hv
  unfold collectErrors at hv
  rcases List.mem_filterMap.1 hv with ⟨r, hr, hfr⟩
  have hok := h r hr
  unfold recFieldsOk at hok
  rw [Bool.and_eq_true] at hok
  obtain ⟨_, h2⟩ := hok
  by_cases hs : recSuccess r
  · rw [if_pos hs] at hfr
    exact absurd hfr (by simp)
  · rw [if_neg hs] at hfr
    cases hem : r.lookup "error_message" with
    | none =>
        rw [hem] at hfr
        simp at hfr
    | some u =>
        simp only [hem] at hfr
        simp only [hem] at h2
        by_cases ht : truthy u
        · rw [if_pos ht] at hfr
          cases u with
          | strv s => exact ⟨s, by injection hfr with h3; exact h3.symm⟩
          | nullv => simp [truthy] at ht
          | boolv b =>
              simp [truthy] at h2 ht
              rw [h2] at ht
              simp at ht
          | numv q =>
              simp [truthy] at h2 ht
              exact absurd h2 ht
        · rw [if_neg ht] at hfr
          simp at hfr

theorem mapM_renderErrorLine_ok (l : List PFlat) (n : ℕ)
    (h : ∀ v ∈ l, ∃ s, v = PFlat.strv s) :
    ∃ out, (List.enumFrom n l).mapM
        (fun p => renderErrorLine (p.1 + 1) p.2) = Except.ok out := by
  induction l generalizing n with
  | nil => exact ⟨[], rfl⟩
  | cons v vs ih =>
      obtain ⟨s, hs⟩ := h v (List.mem_cons_self _ _)
      obtain ⟨out, hout⟩ := ih (n + 1) (fun x hx => h x (List.mem_cons_of_mem _ hx))
      refine ⟨("  " ++ toString (n + 1) ++ ". " ++ shortMsg s) :: out, ?_⟩
      simp only [List.enumFrom, List.mapM_cons, hout, hs]
      rfl

theorem renderSummary_ok (window : List JRecord)
    (h : ∀ r ∈ window, recFieldsOk r = true) :
    ∃ s, renderSummary window = Except.ok s := by
  have huniq : ∀ v ∈ uniqueErrors (collectErrors window), ∃ s, v = PFlat.strv s := by
    intro v hv
    refine collectErrors_strv window h v ?_
    exact ((List.take_sublist 3 _).trans (dedupFirstAux_sublist [] _)).subset hv
  by_cases he : (uniqueErrors (collectErrors window)).isEmpty
  · exact ⟨_, by simp [renderSummary, he]; rfl⟩
  · obtain ⟨out, hout⟩ := mapM_renderErrorLine_ok _ 0 huniq
    have hout2 : (uniqueErrors (collectErrors window)).enum.mapM
        (fun p => renderErrorLine (p.1 + 1) p.2) = Except.ok out := hout
    cases hres : renderSummary window with
    | ok s => exact ⟨s, rfl⟩
    | error u =>
        exfalso
        simp only [renderSummary] at hres
        rw [if_neg he, hout2] at hres
        simp [Bind.bind, Except.bind] at hres

/-- C7 (amended): the Feedback Summarizer never raises on a log whose
JSON lines are all objects with expected field types: absent file →
fixed first-run message; any unparsable line → fixed caution message;
all-blank (no records) → fixed empty-log message; otherwise it parses
one record per non-blank line, sorts ascending by the `start_time` key
and keeps the last `max_runs` records (`max_runs ≥ 1`; the slice
`[-0:]` would keep everything).  A line holding a JSON non-object value
makes the sort key access raise (`C7_counterexample`). -/
theorem C7_feedback_summary_branches :
    (∀ k, load_feedback_summary none k = Except.ok firstRunMsg) ∧
    (∀ lines k, LogLine.bad ∈ lines →
      load_feedback_summary (some lines) k = Except.ok cautionMsg) ∧
    (∀ lines k, (∀ l ∈ lines, l = LogLine.blank) →
      load_feedback_summary (some lines) k = Except.ok emptyLogMsg) ∧
    (∀ lines k, lines.all lineIsOkRec = true →
      parseLog lines = some ((extractRecs lines).map Sum.inr) ∧
      ∃ s, load_feedback_summary (some lines) k = Except.ok s) ∧
    (∀ keyed k,
      (sortByKey keyed).Pairwise (fun a b => strLeb a.2 b.2 = true) ∧
      List.Perm (sortByKey keyed) keyed ∧
      (∃ pre, sortByKey keyed = pre ++ pySliceLast k (sortByKey keyed)) ∧
      (k ≠ 0 → (feedbackWindow keyed k).length = min k keyed.length)) := by
  refine ⟨fun k => rfl, ?_, ?_, ?_, ?_⟩
  · intro lines k hbad
    simp only [load_feedback_summary]
    rw [(parseLog_eq_none_iff lines).2 hbad]
  · intro lines k hblank
    have hok : ∀ l ∈ lines, lineIsOkRec l = true := fun l hl => by
      rw [hblank l hl]
      rfl
    have hrec : extractRecs lines = [] := by
      unfold extractRecs
      rw [List.filterMap_eq_nil_iff]
      intro l hl
      rw [hblank l hl]
    simp only [load_feedback_summary]
    rw [parseLog_all_records lines hok, hrec]
    rfl
  · intro lines k hall
    have hok := List.all_eq_true.1 hall
    have hparse := parseLog_all_records lines hok
    refine ⟨hparse, ?_⟩
    have hfields : ∀ r ∈ extractRecs lines, recFieldsOk r = true := by
      intro r hr
      rcases List.mem_filterMap.1 hr with ⟨l, hl, hfl⟩
      cases l with
      | record r2 =>
          injection hfl with h2
          have := hok _ hl
          rw [← h2]
          simpa [lineIsOkRec] using this
      | blank => simp at hfl
      | bad => simp at hfl
      | scalar v => simp at hfl
    by_cases hemp : (extractRecs lines).map Sum.inr = ([] : List (PFlat ⊕ JRecord))
    · refine ⟨emptyLogMsg, ?_⟩
      simp only [load_feedback_summary]
      rw [hparse, hemp]
      rfl
    · have hne : (((extractRecs lines).map Sum.inr :
          List (PFlat ⊕ JRecord))).isEmpty = false := by
        cases hc : ((extractRecs lines).map Sum.inr : List (PFlat ⊕ JRecord)) with
        | nil => exact absurd hc hemp
        | cons a as => rfl
      obtain ⟨keyed, hkeyed, hmap⟩ := mapM_recKey_ok (extractRecs lines)
        (fun r hr => recKey_ok_of_fieldsOk r (hfields r hr))
      have hwin : ∀ r ∈ feedbackWindow keyed k, recFieldsOk r = true := by
        intro r hr
        unfold feedbackWindow at hr
        rcases List.mem_map.1 hr with ⟨p, hp, rfl⟩
        have hp2 : p ∈ sortByKey keyed := by
          unfold pySliceLast at hp
          split at hp
          · exact hp
          · exact (List.drop_sublist _ _).subset hp
        have hp3 : p ∈ keyed := (sortByKey_perm keyed).subset hp2
        have hp4 : p.1 ∈ keyed.map Prod.fst := List.mem_map_of_mem Prod.fst hp3
        rw [hmap] at hp4
        exact hfields _ hp4
      obtain ⟨s, hs⟩ := renderSummary_ok (feedbackWindow keyed k) hwin
      refine ⟨s, ?_⟩
      simp only [load_feedback_summary]
      rw [hparse]
      simp only [hne, Bool.false_eq_true, if_false, asRecords_map_inr, hkeyed, hs]
  · intro keyed k
    refine ⟨sortByKey_pairwise keyed, sortByKey_perm keyed,
      pySliceLast_split k _, ?_⟩
    intro hk
    unfold feedbackWindow
    rw [List.length_map, pySliceLast_length k hk,
      (sortByKey_perm keyed).length_eq]

/-- C7 witness: a concrete well-typed one-record log. -/
theorem C7_feedback_summary_branches_witness :
    ([LogLine.record [("start_time", PFlat.strv "2024-09-01T00:00:00"),
        ("success", PFlat.boolv true)]].all lineIsOkRec = true) ∧
    ∃ s, load_feedback_summary
        (some [LogLine.record [("start_time", PFlat.strv "2024-09-01T00:00:00"),
          ("success", PFlat.boolv true)]]) 5 = Except.ok s := by
  have h := C7_feedback_summary_branches
  exact ⟨by decide, (h.2.2.2.1
    [LogLine.record [("start_time", PFlat.strv "2024-09-01T00:00:00"),
      ("success", PFlat.boolv true)]] 5 (by decide)).2⟩

/-- C7 counterexample: a log file whose single line is the JSON value
`5` parses (so neither the caution nor the empty-log branch fires), and
the sort key access `r.get("start_time", "")` then raises
`AttributeError` — `load_feedback_summary` propagates an exception, so
it does not return a value for every log-file state. -/
theorem C7_counterexample :
    load_feedback_summary (some [LogLine.scalar (PFlat.numv 5)]) 5 =
      Except.error () := by
  rfl

/-! ## C9 — generate_insights on arbitrary inputs -/

theorem trendBlock_ok (fs : List (String × IVal)) (h : trendOk fs = true) :
    ∃ v, trendBlock fs = Except.ok v := by
  cases hres : trendBlock fs with
  | ok v => exact ⟨v, rfl⟩
  | error u =>
      exfalso
      unfold trendOk at h
      simp only [trendBlock] at hres
      cases htr : fs.lookup "trend" with
      | none =>
          rw [htr] at hres
          simp at hres
      | some tv =>
          rw [htr] at h
          simp only [htr] at hres
          by_cases htv : truthyI tv
          · rw [if_pos htv] at hres
            rw [Bool.or_eq_true] at h
            rcases h with h | h
            · rw [htv] at h
              simp at h
            · cases tv with
              | dictv tfs =>
                  rw [Bool.and_eq_true] at h
                  obtain ⟨hslope, hdir⟩ := h
                  have hs : ∃ q, asNum ((tfs.lookup "slope").getD (IVal.numv 0)) =
                      Except.ok q := by
                    cases hsl : tfs.lookup "slope" with
                    | none => exact ⟨0, rfl⟩
                    | some sv =>
                        rw [hsl] at hslope
                        cases sv with
                        | numv q => exact ⟨q, rfl⟩
                        | boolv b => exact ⟨if b then 1 else 0, rfl⟩
                        | nullv => simp at hslope
                        | strv s => simp at hslope
                        | listv xs => simp at hslope
                        | dictv fs2 => simp at hslope
                  have hd : ∃ d, (tfs.lookup "direction").getD (IVal.strv "stable") =
                      IVal.strv d := by
                    cases hdr : tfs.lookup "direction" with
                    | none => exact ⟨"stable", rfl⟩
                    | some dv =>
                        rw [hdr] at hdir
                        cases dv with
                        | strv s => exact ⟨s, rfl⟩
                        | nullv => simp at hdir
                        | boolv b => simp at hdir
                        | numv q => simp at hdir
                        | listv xs => simp at hdir
                        | dictv fs2 => simp at hdir
                  obtain ⟨q, hq⟩ := hs
                  obtain ⟨d, hdv⟩ := hd
                  simp [hq, hdv, Bind.bind, Except.bind] at hres
              | nullv => simp at h
              | boolv b => simp at h
              | numv q => simp at h
              | strv s => simp at h
              | listv xs => simp at h
          · rw [if_neg htv] at hres
            simp at hres

theorem mapM_asNum_ok (cfs : List (String × IVal))
    (h : allNumValues cfs = true) :
    ∃ pairs : List (String × ℚ),
      cfs.mapM (fun p => (asNum p.2).map (fun q => (p.1, q))) =
        Except.ok pairs ∧ pairs.length = cfs.length := by
  induction cfs with
  | nil => exact ⟨[], rfl, rfl⟩
  | cons p ps ih =>
      unfold allNumValues at h ih
      rw [List.all_cons, Bool.and_eq_true] at h
      obtain ⟨hp, hps⟩ := h
      obtain ⟨pairs, hpairs, hlen⟩ := ih hps
      have hq : ∃ q, asNum p.2 = Except.ok q := by
        cases hv : p.2 with
        | numv q => exact ⟨q, rfl⟩
        | boolv b => exact ⟨if b then 1 else 0, rfl⟩
        | nullv => rw [hv] at hp; simp at hp
        | strv s => rw [hv] at hp; simp at hp
        | listv xs => rw [hv] at hp; simp at hp
        | dictv fs2 => rw [hv] at hp; simp at hp
      obtain ⟨q, hq⟩ := hq
      refine ⟨(p.1, q) :: pairs, ?_, by simp [hlen]⟩
      rw [List.mapM_cons, hq, hpairs]
      rfl

theorem corrBlock_ok (fs : List (String × IVal)) (h : corrOk fs = true) :
    ∃ v, corrBlock fs = Except.ok v := by
  cases hres : corrBlock fs with
  | ok v => exact ⟨v, rfl⟩
  | error u =>
      exfalso
      unfold corrOk at h
      simp only [corrBlock] at hres
      cases hcv : fs.lookup "correlations" with
      | none =>
          simp only [hcv, Option.getD_none] at hres
          simp [truthyI] at hres
      | some cv =>
          simp only [hcv] at h
          simp only [hcv, Option.getD_some] at hres
          by_cases htv : truthyI cv
          · rw [if_pos htv] at hres
            rw [Bool.or_eq_true] at h
            rcases h with h | h
            · rw [htv] at h
              simp at h
            · cases cv with
              | dictv cfs =>
                  obtain ⟨pairs, hpairs, _⟩ := mapM_asNum_ok cfs h
                  simp only [hpairs] at hres
                  cases pairs with
                  | nil => simp [Bind.bind, Except.bind] at hres
                  | cons hd tl => simp [Bind.bind, Except.bind] at hres
              | nullv => simp at h
              | boolv b => simp at h
              | numv q => simp at h
              | strv s => simp at h
              | listv xs => simp at h
          · rw [if_neg htv] at hres
            simp at hres

theorem segBlock_ok (fs : List (String × IVal)) (h : segsOk fs = true) :
    ∃ v, segBlock fs = Except.ok v := by
  cases hres : segBlock fs with
  | ok v => exact ⟨v, rfl⟩
  | error u =>
      exfalso
      unfold segsOk at h
      simp only [segBlock] at hres
      cases hsv : fs.lookup "segments" with
      | none =>
          rw [hsv] at hres
          simp at hres
      | some sv =>
          rw [hsv] at h
          simp only [hsv] at hres
          by_cases htv : truthyI sv
          · rw [if_pos htv] at hres
            rw [Bool.or_eq_true] at h
            rcases h with h | h
            · rw [htv] at h
              simp at h
            · cases sv with
              | dictv sfs =>
                  obtain ⟨pairs, hpairs, _⟩ := mapM_asNum_ok sfs h
                  simp only [hpairs] at hres
                  cases pairs with
                  | nil => simp [Bind.bind, Except.bind] at hres
                  | cons hd tl => simp [Bind.bind, Except.bind] at hres
              | nullv => simp at h
              | boolv b => simp at h
              | numv q => simp at h
              | strv s => simp at h
              | listv xs => simp at h
          · rw [if_neg htv] at hres
            simp at hres

/-- C9 (amended): `generate_insights` returns a textual report without
raising for every input string that fails to parse as JSON (the raw
text is wrapped) and for every JSON object whose optional contract
fields are well-shaped — in particular for every error-shaped
contract.  An input that parses to a JSON non-object value raises at
`data.get` (`C9_counterexample`), as do malformed field shapes. -/
theorem C9_defensive_parsing (parsed : Option IVal) (raw now : String)
    (h : wellShapedData parsed = true) :
    ∃ rpt, generate_insights parsed raw now = Except.ok rpt := by
  cases hres : generate_insights parsed raw now with
  | ok rpt => exact ⟨rpt, rfl⟩
  | error u =>
      exfalso
      cases parsed with
      | none =>
          have h1 : statusIsError [("raw", IVal.strv raw)] = false := rfl
          have h2 : trendBlock [("raw", IVal.strv raw)] = Except.ok ([], []) := rfl
          have h3 : corrBlock [("raw", IVal.strv raw)] = Except.ok ([], []) := rfl
          have h4 : segBlock [("raw", IVal.strv raw)] = Except.ok ([], []) := rfl
          simp [generate_insights, h1, h2, h3, h4, Bind.bind, Except.bind] at hres
      | some v =>
          cases v with
          | dictv fs =>
              unfold wellShapedData at h
              simp only [generate_insights] at hres
              by_cases hst : statusIsError fs
              · rw [if_pos hst] at hres
                simp at hres
              · rw [if_neg hst] at hres
                rw [Bool.or_eq_true] at h
                rcases h with h | h
                · exact absurd h hst
                · rw [Bool.and_eq_true, Bool.and_eq_true] at h
                  obtain ⟨⟨h1, h2⟩, h3⟩ := h
                  obtain ⟨v1, hv1⟩ := trendBlock_ok fs h1
                  obtain ⟨v2, hv2⟩ := corrBlock_ok fs h2
                  obtain ⟨v3, hv3⟩ := segBlock_ok fs h3
                  simp [hv1, hv2, hv3, Bind.bind, Except.bind] at hres
          | nullv => simp [wellShapedData] at h
          | boolv b => simp [wellShapedData] at h
          | numv q => simp [wellShapedData] at h
          | strv s => simp [wellShapedData] at h
          | listv xs => simp [wellShapedData] at h

/-- C9 witness: a concrete error-shaped contract input. -/
theorem C9_defensive_parsing_witness :
    (wellShapedData (some (IVal.dictv [("status", IVal.strv "error"),
        ("message", IVal.strv "Target column not found")])) = true) ∧
    ∃ rpt, generate_insights
        (some (IVal.dictv [("status", IVal.strv "error"),
          ("message", IVal.strv "Target column not found")]))
        "ignored" "2024-09-30 12:00" = Except.ok rpt := by
  refine ⟨by rfl, ?_⟩
  exact C9_defensive_parsing _ "ignored" "2024-09-30 12:00" (by rfl)

/-- C9 counterexample: the string `"5"` is valid JSON, so `json.loads`
succeeds with the integer `5`, and `data.get("status")` then raises
`AttributeError` — `generate_insights` does not return a report for
every input string. -/
theorem C9_counterexample :
    generate_insights (some (IVal.numv 5)) "5" "2024-09-30 12:00" =
      Except.error () := by
  rfl

end SalesAgent
